import Mathlib

/-!
Verification development for the sqlsurge SQL-extraction subsystem.

The definitions below are a shallow embedding of the repository's
TypeScript source:

* the Python-host SQL extractor (`extractSqlListPy`, `extractSqlFromPython`,
  `extractSqlFromLine`, `convertPositionToLineChar`, `extractSqlString`);
* the extension's `refresh` function (virtual-document construction and
  the create/overwrite/delete diffing of the virtual-document store);
* the formatting command (`formatSqlNode`, `getPrefixAndSuffix`,
  `getPositions`, `shouldSkipFormatting`, `indentedContent`).

Host text is modelled as `List Char`; JavaScript strings are immutable
sequences of characters, and all the code under study treats them as such.
Line/column coordinates assume newline-only (`\n`) line endings, which is
the convention of every document the extractor splits with
`split("\n")`.  Regular-expression matching in the source uses only
patterns whose backtracking behaviour is deterministic (literal text,
greedy whitespace runs disjoint from their successor, lazy classes closed
by their complement), so each pattern is embedded as the equivalent
deterministic scanner, applied at every start position in order
(JavaScript's leftmost-match rule).
-/

/-- Character constants (written via code points to keep the development
    free of quote-character literals). -/
def nlChar : Char := Char.ofNat 10

def spChar : Char := Char.ofNat 32

def tabChar : Char := Char.ofNat 9

def crChar : Char := Char.ofNat 13

def vtChar : Char := Char.ofNat 11

def ffChar : Char := Char.ofNat 12

def dqChar : Char := Char.ofNat 34

def sqChar : Char := Char.ofNat 39

def bqChar : Char := Char.ofNat 96

def bslChar : Char := Char.ofNat 92

def lparChar : Char := Char.ofNat 40

def rparChar : Char := Char.ofNat 41

def dotChar : Char := Char.ofNat 46

/-- JavaScript's `\s` character class (the set used by `trim`, `\s*` in the
    extraction regexes, and `/^\s*$/` in the formatter). -/
def isJsWs (c : Char) : Bool :=
  let n := c.toNat
  n == 32 || n == 9 || n == 10 || n == 13 || n == 11 || n == 12 ||
  n == 0xa0 || n == 0x1680 || (0x2000 ≤ n && n ≤ 0x200a) ||
  n == 0x2028 || n == 0x2029 || n == 0x202f || n == 0x205f ||
  n == 0x3000 || n == 0xfeff

/-- JavaScript `String.prototype.trim`. -/
def jsTrim (l : List Char) : List Char :=
  ((l.dropWhile isJsWs).reverse.dropWhile isJsWs).reverse

/-- JavaScript `String.prototype.split("\n")`: always returns at least one
    (possibly empty) piece; pieces contain no newline. -/
def splitLines : List Char → List (List Char)
  | [] => [[]]
  | c :: rest =>
    if c = nlChar then [] :: splitLines rest
    else
      match splitLines rest with
      | l :: ls => (c :: l) :: ls
      | [] => [[c]]

/-- `pieces.join("\n")`, the inverse direction of `splitLines`. -/
def joinNl (ls : List (List Char)) : List Char :=
  match ls with
  | [] => []
  | [l] => l
  | l :: ls' => l ++ nlChar :: joinNl ls'

/-- Number of occurrences of `needle` as a substring (used only to state
    facts about concrete counterexample inputs). -/
def countOcc (needle hay : List Char) : Nat :=
  (List.range (hay.length + 1)).countP (fun i => needle.isPrefixOf (hay.drop i))

/-- `String.prototype.indexOf(needle)` starting the search at offset `k`
    of the remaining text; returns the absolute index.  `none` models the
    JavaScript result `-1`. -/
def idxOfAux (needle : List Char) : List Char → Nat → Option Nat
  | hay, k =>
    if needle.isPrefixOf hay then some k
    else
      match hay with
      | [] => none
      | _ :: t => idxOfAux needle t (k + 1)

/-- `hay.indexOf(needle, start)`. -/
def jsIndexOfFrom (needle hay : List Char) (start : Nat) : Option Nat :=
  (idxOfAux needle (hay.drop start) 0).map (· + start)

example : jsIndexOfFrom ([dqChar]) (("ab\"cd").data) 0 = some 2 := by decide

example : splitLines (("ab\ncd").data) = [("ab").data, ("cd").data] := by decide

example : jsTrim ((" ab ").data) = ("ab").data := by decide

/-! ### Data model (`interface.ts` / `sql-extraction-py`) -/

/-- Zero-based line/character position (vscode `Position`). -/
structure Pos where
  line : Nat
  character : Nat
deriving DecidableEq, Repr

/-- An extracted SQL fragment (`SqlNode` in `interface.ts`).  The source
    stores the span as `code_range : { start, end }`; `end` is a Lean
    keyword, so the two endpoints are flattened into `rangeStart` and
    `rangeStop`. -/
structure SqlNode where
  rangeStart : Pos
  rangeStop : Pos
  content : List Char
  method_line : Nat
deriving DecidableEq, Repr

/-- `CustomRawSqlQueryPyItem`. -/
structure CustomRawSqlQueryPyItem where
  functionName : List Char
  sqlArgNo : Nat
  isStringTemplate : Bool
deriving DecidableEq, Repr

/-- The hard-coded `defaultConfigs` of `extractSqlFromPython`. -/
def defaultConfigs : List CustomRawSqlQueryPyItem :=
  [ { functionName := ("execute").data, sqlArgNo := 1, isStringTemplate := false },
    { functionName := ("executemany").data, sqlArgNo := 1, isStringTemplate := false },
    { functionName := ("query").data, sqlArgNo := 1, isStringTemplate := false },
    { functionName := ("raw").data, sqlArgNo := 1, isStringTemplate := false },
    { functionName := ("text").data, sqlArgNo := 1, isStringTemplate := false } ]

/-! ### Literal scanner (`extractSqlFromLine`, lines 68–127 of the
extractor): collect the full call text while tracking paren depth,
string state and triple quotes. -/

/-- Mutable scanning state of `extractSqlFromLine`'s collection loop. -/
structure ScanState where
  parenthesesCount : Int
  inString : Bool
  stringChar : Char
  foundFunction : Bool
deriving DecidableEq, Repr

def initScanState : ScanState :=
  { parenthesesCount := 0, inString := false, stringChar := spChar,
    foundFunction := false }

/-- One step of the character loop.  `prev`/`prev2` are `line[i-1]` and
    `line[i-2]` (`none` when the index is out of range); both reset at the
    start of every line, exactly as in the source where `prevChar` is
    computed from the current line only. -/
def scanChar (st : ScanState) (prev prev2 : Option Char) (c : Char) : ScanState :=
  if !st.inString then
    if c = dqChar || c = sqChar || (c = bqChar && !st.foundFunction) then
      { st with inString := true, stringChar := c }
    else if c = lparChar then
      { st with parenthesesCount := st.parenthesesCount + 1, foundFunction := true }
    else if c = rparChar then
      { st with parenthesesCount := st.parenthesesCount - 1 }
    else st
  else
    if c = st.stringChar && prev ≠ some bslChar then
      -- triple-quote special case: `line.substring(i-2, i+1)` equals the
      -- quote repeated three times (only checked for " and ')
      if (st.stringChar = dqChar || st.stringChar = sqChar) &&
          prev = some st.stringChar && prev2 = some st.stringChar then
        st
      else
        { st with inString := false, stringChar := spChar }
    else st

/-- Scan one whole line, threading the state and the two previous
    characters.  (The source resets `stringChar` to `""`; the model uses a
    space as the inert placeholder, which is never compared while
    `inString` is false.) -/
def scanLineAux (st : ScanState) (prev prev2 : Option Char) : List Char → ScanState
  | [] => st
  | c :: rest => scanLineAux (scanChar st prev prev2 c) (some c) prev rest

def scanLine (st : ScanState) (line : List Char) : ScanState :=
  scanLineAux st none none line

/-- The multi-line collection loop: append lines (joined by `"\n"`) until
    the call's parentheses close, recording the start offset of every
    appended line in `lineOffsets`.  Reaching the end of input leaves the
    loop with whatever text was collected (unterminated calls are NOT
    discarded; extraction still runs on the collected text). -/
def collectAux : List (List Char) → ScanState → List Char → List Nat →
    List Char × List Nat
  | [], _, acc, offsets => (acc, offsets)
  | line :: rest, st, acc, offsets =>
    let acc' := acc ++ line
    let st' := scanLine st line
    if st'.foundFunction && st'.parenthesesCount = 0 then (acc', offsets)
    else
      match rest with
      | [] => (acc', offsets)
      | _ :: _ => collectAux rest st' (acc' ++ [nlChar]) (offsets ++ [acc'.length + 1])

/-- `fullLine`/`lineOffsets` as assembled by `extractSqlFromLine` starting
    at line `startLineIndex`. -/
def collectCall (lines : List (List Char)) (startLineIndex : Nat) :
    List Char × List Nat :=
  collectAux (lines.drop startLineIndex) initScanState [] [0]

/-- `convertPositionToLineChar`: map a character offset of the collected
    call text back to a (line, character) position, using the recorded
    per-line offsets. -/
def convertPositionToLineChar (charOffset : Nat) (lineOffsets : List Nat)
    (baseLineIndex : Nat) : Pos :=
  let pairs := lineOffsets.zip lineOffsets.tail
  let idx0 := (pairs.findIdx? (fun p => p.1 ≤ charOffset && charOffset < p.2)).getD 0
  let lastOffset := lineOffsets.getLastD 0
  let lineIndex := if lastOffset ≤ charOffset then lineOffsets.length - 1 else idx0
  let lineStartOffset := lineOffsets.getD lineIndex 0
  { line := baseLineIndex + lineIndex, character := charOffset - lineStartOffset }

example :
    collectCall [("db.execute(\"\"\"").data, ("SELECT A\"\"\")").data] 0
      = (("db.execute(\"\"\"\nSELECT A\"\"\")").data, [0, 15]) := by decide

example : convertPositionToLineChar 23 [0, 15] 0 = { line := 1, character := 8 } := by
  decide

/-! ### Per-line rule test (`extractSqlFromPython`, lines 50–61): the
regex `\.name\s*\(` or `^\s*name\s*\(` applied with `test` (existence of a
match, case-sensitive — this regex carries no `i` flag). -/

/-- After the function name: `\s*` then a literal `(`. -/
def wsParen (t : List Char) : Bool :=
  match t.dropWhile isJsWs with
  | c :: _ => c = lparChar
  | [] => false

/-- Does `\.name\s*\(` match anywhere in the line? -/
def dotNameTest (name : List Char) : List Char → Bool
  | [] => false
  | c :: rest =>
    (c = dotChar && name.isPrefixOf rest && wsParen (rest.drop name.length)) ||
    dotNameTest name rest

/-- Does `^\s*name\s*\(` match (every backtracking split of the leading
    `\s*` is tried, as a regex engine would)? -/
def startNameTest (name : List Char) : List Char → Bool
  | [] => name.isPrefixOf [] && wsParen []
  | c :: rest =>
    (name.isPrefixOf (c :: rest) && wsParen ((c :: rest).drop name.length)) ||
    (isJsWs c && startNameTest name rest)

/-- `functionPattern.test(line)`. -/
def functionPatternTest (line name : List Char) : Bool :=
  dotNameTest name line || startNameTest name line

/-! ### Fragment extractor (`extractSqlString`, lines 193–267).

The four precise patterns (all compiled with the `i` flag) and the
keyword-sniffing fallback.  Each pattern is deterministic at a given start
position; JavaScript's leftmost-match rule is modelled by trying every
start position from the left (`firstMatchAt`). -/

/-- Case-insensitive character comparison (the `i` flag; ASCII folding,
    which covers the identifiers and prefix letters used here). -/
def eqCI (a b : Char) : Bool := a.toLower = b.toLower

def ciPrefixOf : List Char → List Char → Bool
  | [], _ => true
  | _ :: _, [] => false
  | p :: ps, c :: cs => eqCI p c && ciPrefixOf ps cs

/-- Leftmost match: try the matcher at offset 0, 1, 2, … of the text. -/
def firstMatchAt {α : Type} (f : List Char → Option α) : List Char → Option α
  | [] => f []
  | c :: rest =>
    match f (c :: rest) with
    | some r => some r
    | none => firstMatchAt f rest

/-- Pattern 1, `name\s*\(\s*["']([^"']*?)["']`, anchored at the start of
    `s`.  Returns `(match[0], match[1])`. -/
def pat1At (name : List Char) (s : List Char) : Option (List Char × List Char) :=
  if ciPrefixOf name s then
    match (s.drop name.length).dropWhile isJsWs with
    | c1 :: t2 =>
      if c1 = lparChar then
        match t2.dropWhile isJsWs with
        | c2 :: t4 =>
          if c2 = dqChar || c2 = sqChar then
            let content := t4.takeWhile (fun c => !(c = dqChar || c = sqChar))
            match t4.drop content.length with
            | _ :: t6 => some (s.take (s.length - t6.length), content)
            | [] => none
          else none
        | [] => none
      else none
    | [] => none
  else none

/-- Lazy `[\s\S]*?` closed by three consecutive `q`s: the text strictly
    before the first occurrence of the closing triple quote. -/
def splitUntilTriple (q : Char) : List Char → Option (List Char)
  | [] => none
  | a :: rest =>
    match rest with
    | b :: c :: _ =>
      if a = q && b = q && c = q then some []
      else (splitUntilTriple q rest).map (a :: ·)
    | _ => none

/-- One alternation branch of pattern 2: opening triple quote `q`,
    lazy body, closing triple quote. -/
def tripleBranch (q : Char) (t : List Char) : Option (List Char × Nat) :=
  if [q, q, q].isPrefixOf t then
    (splitUntilTriple q (t.drop 3)).map (fun content => (content, 3 + content.length + 3))
  else none

/-- Pattern 2, `name\s*\(\s*(?:"""([\s\S]*?)"""|'''([\s\S]*?)''')`,
    anchored at the start of `s`. -/
def pat2At (name : List Char) (s : List Char) : Option (List Char × List Char) :=
  if ciPrefixOf name s then
    match (s.drop name.length).dropWhile isJsWs with
    | c1 :: t2 =>
      if c1 = lparChar then
        let t3 := t2.dropWhile isJsWs
        match tripleBranch dqChar t3 <|> tripleBranch sqChar t3 with
        | some (content, used) =>
          some (s.take (s.length - (t3.length - used)), content)
        | none => none
      else none
    | [] => none
  else none

/-- Patterns 3 and 4, `name\s*\(\s*X["']([^"']*?)["']` with prefix letter
    `X` (`r` for raw strings, `f` for f-strings; `i` flag applies). -/
def patLetterAt (letter : Char) (name : List Char) (s : List Char) :
    Option (List Char × List Char) :=
  if ciPrefixOf name s then
    match (s.drop name.length).dropWhile isJsWs with
    | c1 :: t2 =>
      if c1 = lparChar then
        match t2.dropWhile isJsWs with
        | c2 :: t4 =>
          if eqCI c2 letter then
            match t4 with
            | c3 :: t5 =>
              if c3 = dqChar || c3 = sqChar then
                let content := t5.takeWhile (fun c => !(c = dqChar || c = sqChar))
                match t5.drop content.length with
                | _ :: t7 => some (s.take (s.length - t7.length), content)
                | [] => none
              else none
            | [] => none
          else none
        | [] => none
      else none
    | [] => none
  else none

/-- The result record of `extractSqlString` (`start`/`end` are produced
    with `line: 0`; only the `character` fields are consumed). -/
structure ExtractedSql where
  content : List Char
  startChar : Nat
  endChar : Nat
deriving DecidableEq, Repr

/-- Locate a pattern match inside the call text the way the source does:
    `matchStart = functionCall.indexOf(match[0])`,
    `contentStart = functionCall.indexOf(sqlContent, matchStart)`.
    Both searches necessarily succeed (the match came from this text);
    the `getD 0` arm is unreachable. -/
def mkPatternResult (functionCall : List Char) (m : List Char × List Char) :
    ExtractedSql :=
  let matchStart := (jsIndexOfFrom m.1 functionCall 0).getD 0
  let contentStart := (jsIndexOfFrom m.2 functionCall matchStart).getD 0
  { content := jsTrim m.2, startChar := contentStart,
    endChar := contentStart + m.2.length }

/-- One loop iteration of the pattern list: the leftmost match of the
    pattern, kept only if `sqlContent && sqlContent.trim()` is truthy. -/
def stagedPattern (pat : List Char → Option (List Char × List Char))
    (functionCall : List Char) : Option ExtractedSql :=
  match firstMatchAt pat functionCall with
  | some m => if jsTrim m.2 = [] then none else some (mkPatternResult functionCall m)
  | none => none

/-- All four precise patterns, in source order. -/
def stagedPatterns (name functionCall : List Char) : Option ExtractedSql :=
  stagedPattern (pat1At name) functionCall <|>
  stagedPattern (pat2At name) functionCall <|>
  stagedPattern (patLetterAt (Char.ofNat 114) name) functionCall <|>
  stagedPattern (patLetterAt (Char.ofNat 102) name) functionCall

/-- The fixed keyword set of the fallback. -/
def sqlKeywords : List (List Char) :=
  [("SELECT").data, ("INSERT").data, ("UPDATE").data, ("DELETE").data,
   ("CREATE").data, ("ALTER").data, ("DROP").data, ("WITH").data]

def isAnyQuote (c : Char) : Bool := c = dqChar || c = sqChar || c = bqChar

/-- The global scan `functionCall.match(/["'`]([\s\S]*?)["'`]/g)`: pair up
    quote characters (of any of the three kinds) left to right; each match
    is returned with its surrounding quotes. -/
def quotedStringsAux : Option (Char × List Char) → List Char → List (List Char)
  | _, [] => []
  | none, c :: rest =>
    if isAnyQuote c then quotedStringsAux (some (c, [])) rest
    else quotedStringsAux none rest
  | some (q, acc), c :: rest =>
    if isAnyQuote c then (q :: acc.reverse ++ [c]) :: quotedStringsAux none rest
    else quotedStringsAux (some (q, c :: acc)) rest

def quotedStrings (t : List Char) : List (List Char) :=
  quotedStringsAux none t

/-- `stringMatch.slice(1, -1)`: remove the surrounding quotes. -/
def stripQuotes (s : List Char) : List Char := (s.drop 1).dropLast

/-- `upperContent.includes(keyword)` for some keyword of the fixed set. -/
def containsSqlKeyword (content : List Char) : Bool :=
  sqlKeywords.any (fun kw => (idxOfAux kw (content.map Char.toUpper) 0).isSome)

/-- Predicate applied to each quoted string by the fallback loop. -/
def fallbackHit (stringMatch : List Char) : Bool :=
  containsSqlKeyword (stripQuotes stringMatch)

/-- The keyword-sniffing fallback (lines 234–264): first quoted substring
    whose upper-cased content contains a SQL keyword;
    `startPos = functionCall.indexOf(stringMatch) + 1`. -/
def fallbackSql (functionCall : List Char) : Option ExtractedSql :=
  ((quotedStrings functionCall).find? fallbackHit).map (fun stringMatch =>
    let content := stripQuotes stringMatch
    let startPos := (jsIndexOfFrom stringMatch functionCall 0).getD 0 + 1
    { content := jsTrim content, startChar := startPos,
      endChar := startPos + content.length })

/-- `extractSqlString`: the four precise patterns in priority order, then
    the fallback. -/
def extractSqlString (functionCall : List Char) (config : CustomRawSqlQueryPyItem) :
    Option ExtractedSql :=
  stagedPatterns config.functionName functionCall <|> fallbackSql functionCall

example :
    extractSqlString (("cursor.execute(\"SELECT 1\")").data)
        { functionName := ("execute").data, sqlArgNo := 1, isStringTemplate := false }
      = some { content := ("SELECT 1").data, startChar := 16, endChar := 24 } := by
  decide

example :
    extractSqlString (("db.execute(\"\"\"\nSELECT A\"\"\")").data)
        { functionName := ("execute").data, sqlArgNo := 1, isStringTemplate := false }
      = some { content := ("SELECT A").data, startChar := 14, endChar := 23 } := by
  decide

example :
    extractSqlString (("cursor.execute(\"SELECT").data)
        { functionName := ("execute").data, sqlArgNo := 1, isStringTemplate := false }
      = none := by decide

/-! ### Extraction pipeline (`extractSqlFromLine`, `extractSqlFromPython`,
`extractSqlListPy`). -/

/-- `extractSqlFromLine`: collect the call text starting at
    `startLineIndex`, extract the SQL string, convert the character
    offsets back to absolute positions. -/
def extractSqlFromLine (lines : List (List Char)) (startLineIndex : Nat)
    (config : CustomRawSqlQueryPyItem) : Option SqlNode :=
  let collected := collectCall lines startLineIndex
  (extractSqlString collected.1 config).map (fun r =>
    { rangeStart := convertPositionToLineChar r.startChar collected.2 startLineIndex,
      rangeStop := convertPositionToLineChar r.endChar collected.2 startLineIndex,
      content := r.content,
      method_line := startLineIndex })

/-- The fragments contributed by source line `i` (the inner `for config of
    activeConfigs` loop body). -/
def lineMatchGroup (lines : List (List Char))
    (activeConfigs : List CustomRawSqlQueryPyItem) (i : Nat) : List SqlNode :=
  activeConfigs.filterMap (fun config =>
    if functionPatternTest (jsTrim (lines.getD i [])) config.functionName then
      extractSqlFromLine lines i config
    else none)

/-- `extractSqlFromPython`: outer loop over lines, inner loop over the
    active configs.  `configs || defaultConfigs` falls back to the default
    rules only when `configs` is `undefined` (an explicitly supplied empty
    list stays empty, as in JavaScript where `[]` is truthy). -/
def extractSqlFromPython (sourceTxt : List Char)
    (configs : Option (List CustomRawSqlQueryPyItem)) : List SqlNode :=
  let lines := splitLines sourceTxt
  let activeConfigs := configs.getD defaultConfigs
  ((List.range lines.length).map (lineMatchGroup lines activeConfigs)).flatten

/-- `extractSqlListPy` wraps the extraction in `try/catch` and returns
    `[]` when the body throws.  Thrown errors are modelled by `Except`:
    a normal run of `extractSqlFromPython src cfgs` is
    `Except.ok (extractSqlFromPython src cfgs)`, a throw (e.g. an invalid
    `RegExp` built from a hostile `functionName`) is `Except.error e`. -/
def extractSqlListPy (attempt : Except String (List SqlNode)) : List SqlNode :=
  match attempt with
  | .ok sqlNodes => sqlNodes
  | .error _ => []

/-! ### `refresh` (extension.ts, lines 109–177). -/

/-- Character offset of a zero-based (line, character) position in a
    newline-separated text; models both `document.offsetAt` and
    `ts.getPositionOfLineAndCharacter` for `\n`-only documents. -/
def offsetOfLineChar (t : List Char) (line ch : Nat) : Nat :=
  (((splitLines t).take line).map (fun l => l.length + 1)).sum + ch

/-- `rawContent.slice(0, offset).replace(/[^\n]/g, " ")`. -/
def blankNonNl (t : List Char) : List Char :=
  t.map (fun c => if c = nlChar then c else spChar)

/-- Virtual-document text for a fragment whose content starts at character
    offset `startOffset` of the host text: the blanked host prefix followed
    by the fragment content (`prefix + sqlNode.content` in the source). -/
def virtualTextFor (rawContent : List Char) (startOffset : Nat)
    (content : List Char) : List Char :=
  blankNonNl (rawContent.take startOffset) ++ content

/-- The virtual-document text written for one fragment by `refresh`. -/
def mkVirtualText (rawContent : List Char) (sqlNode : SqlNode) : List Char :=
  virtualTextFor rawContent
    (offsetOfLineChar rawContent sqlNode.rangeStart.line sqlNode.rangeStart.character)
    sqlNode.content

/-- The virtual file name `` `${fileName}@${index}.sql` ``. -/
def vKey (fileName : String) (index : Nat) : String :=
  fileName ++ "@" ++ toString index ++ ".sql"

/-- The two process-wide registries touched by `refresh`:
    `virtualContents` (file name → current key list) and the language
    service's snapshot store, both modelled as insertion-ordered
    association lists (the `Map` semantics used by the source). -/
structure VDocStore where
  virtualContents : List (String × List String)
  snapshots : List (String × List Char)
deriving DecidableEq, Repr

/-- `Map.prototype.set`: overwrite in place, else append. -/
def mapSet {α : Type} (m : List (String × α)) (k : String) (v : α) :
    List (String × α) :=
  if (m.lookup k).isSome then
    m.map (fun p => if p.1 = k then (p.1, v) else p)
  else m ++ [(k, v)]

/-- Snapshot deletion. -/
def mapDel {α : Type} (m : List (String × α)) (k : String) : List (String × α) :=
  m.filter (fun p => p.1 != k)

/-- The ordered `writeSnapshot` operations of one refresh: the key
    `vKey fileName index` paired with the virtual text, one per fragment
    (`sqlNodes.map((sqlNode, index) => …)` in the source). -/
def vDocWrites (fileName : String) (rawContent : List Char)
    (sqlNodes : List SqlNode) : List (String × List Char) :=
  sqlNodes.enum.map (fun p => (vKey fileName p.1, mkVirtualText rawContent p.2))

/-- The virtual-document bookkeeping of `refresh` (lines 132–157): write a
    snapshot for every fragment (key = `vKey fileName index`), delete the
    previously registered keys that no longer occur, store the new key
    list.  Besides the new store the model returns the delete operations
    and the write operations actually performed, in order. -/
def refreshVirtualDocs (fileName : String) (rawContent : List Char)
    (sqlNodes : List SqlNode) (st : VDocStore) :
    VDocStore × List String × List (String × List Char) :=
  let lastVirtualFileNames := (st.virtualContents.lookup fileName).getD []
  let writes := vDocWrites fileName rawContent sqlNodes
  let vFileNames := writes.map (·.1)
  let snaps1 := writes.foldl (fun m kv => mapSet m kv.1 kv.2) st.snapshots
  let deleted := lastVirtualFileNames.filter (fun v => !(vFileNames.contains v))
  let snaps2 := deleted.foldl mapDel snaps1
  ({ virtualContents := mapSet st.virtualContents fileName vFileNames,
     snapshots := snaps2 }, deleted, writes)

/-- The `customRawSqlQuery` configuration object. -/
structure CustomRawSqlQueryCfg where
  language : String
  configs : List CustomRawSqlQueryPyItem
deriving DecidableEq, Repr

/-- The configuration filtering and language dispatch of `refresh`
    (lines 117–130): a configuration whose `language` differs from the
    document's language id is discarded (`config = undefined`), and only
    Python documents are extracted at all. -/
def refreshExtract (languageId : String) (rawContent : List Char)
    (config : Option CustomRawSqlQueryCfg) : List SqlNode :=
  if languageId = "python" then
    let config' :=
      match config with
      | some c => if c.language = languageId then some c else none
      | none => none
    extractSqlFromPython rawContent (config'.map (·.configs))
  else []

/-- The `try/catch` of `refresh`: any thrown step yields `[]` (after an
    error notification).  As with `extractSqlListPy`, the fallible body is
    exposed as an `Except` value. -/
def refreshCatch (attempt : Except String (List (SqlNode × String))) :
    List (SqlNode × String) :=
  match attempt with
  | .ok nodes => nodes
  | .error _ => []

/-! ### Format command (`commandFormatSql.ts`). -/

/-- `content.match(/^(\s*)/)?.[0].replace(/ +$/g, "")`: the leading
    whitespace run with its trailing spaces (only `' '`) removed. -/
def formatPfx (content : List Char) : List Char :=
  ((content.takeWhile isJsWs).reverse.dropWhile (fun c => c = spChar)).reverse

/-- `content.match(/(\s*)$/)?.[0]`: the trailing whitespace run. -/
def formatSfx (content : List Char) : List Char :=
  (content.reverse.takeWhile isJsWs).reverse

/-- `indentedContent`: prefix EVERY line of the formatted text with the
    owning line's indentation plus the first `tabSize` characters of that
    indentation.  `methodLineText` is
    `activeTextEditor?.document.lineAt(methodLine).text` (`none` when no
    editor is active); an empty line text or empty indentation returns the
    content unchanged (both are falsy in the source). -/
def indentedContent (content : List Char) (methodLineText : Option (List Char))
    (tabSize : Nat) : List Char :=
  match methodLineText with
  | none => content
  | some lineText =>
    if lineText = [] then content
    else
      let indents := lineText.takeWhile isJsWs
      if indents = [] then content
      else
        let oneLevelDown := indents.take tabSize
        joinNl ((splitLines content).map (fun line => indents ++ oneLevelDown ++ line))

/-- `sourceText[i]` for a possibly negative index. -/
def charAtInt (t : List Char) (i : Int) : Option Char :=
  if i < 0 then none else t.get? i.toNat

/-- Does `sourceText[i]?.match(/^["']$/)` produce a match (not
    `undefined`, not `null`)?  Note the class is `["']` only — a backtick
    does not count. -/
def optIsQuote (c : Option Char) : Bool :=
  match c with
  | some c => c = dqChar || c = sqChar
  | none => false

/-- `getPositions`: absolute start/end offsets of the text to replace.
    Integer-valued, as in JavaScript, since the prefix correction can in
    principle go negative. -/
def getPositions (languageId : String) (sourceText : List Char) (sqlNode : SqlNode)
    (pfxLen sfxLen : Nat) : Int × Int :=
  if languageId ≠ "typescript" && languageId ≠ "javascript" then
    let lines := splitLines sourceText
    let startPosition : Int :=
      ((((lines.take sqlNode.rangeStart.line).map (fun l => l.length + 1)).sum : Nat) : Int) +
        (sqlNode.rangeStart.character : Int) - (pfxLen : Int)
    let midSum : Int :=
      ((((lines.drop sqlNode.rangeStart.line).take
          (sqlNode.rangeStop.line - sqlNode.rangeStart.line)).map
            (fun l => l.length + 1)).sum : Nat)
    (startPosition,
     startPosition + midSum + (sqlNode.rangeStop.character : Int) -
       (sqlNode.rangeStart.character : Int) + sfxLen)
  else
    (((offsetOfLineChar sourceText sqlNode.rangeStart.line
        sqlNode.rangeStart.character : Nat) : Int) - pfxLen,
     ((offsetOfLineChar sourceText sqlNode.rangeStop.line
        sqlNode.rangeStop.character : Nat) : Int) + sfxLen)

/-- `shouldSkipFormatting`: skip when the document is
    TypeScript/JavaScript and both span-adjacent characters exist and are
    `"` or `'`. -/
def shouldSkipFormatting (languageId : String) (sourceText : List Char)
    (startPosition endPosition : Int) : Bool :=
  (languageId = "typescript" || languageId = "javascript") &&
  optIsQuote (charAtInt sourceText (startPosition - 1)) &&
  optIsQuote (charAtInt sourceText endPosition)

/-- `formatSqlNode`: `none` models “no edit registered”; `some (s, e, r)`
    models `editBuilder.replace(range(s, e), r)`.  `fmt` is the external
    `sql-formatter`; `isEnabledIndent` is the `formatSql.indent` setting;
    `methodLineText`/`tabSize` feed `indentedContent`. -/
def formatSqlNode (languageId : String) (docText : List Char) (sqlNode : SqlNode)
    (fmt : List Char → List Char) (isEnabledIndent : Bool)
    (methodLineText : Option (List Char)) (tabSize : Nat) :
    Option (Pos × Pos × List Char) :=
  if sqlNode.content.all isJsWs then none
  else
    let pfx := formatPfx sqlNode.content
    let sfx := formatSfx sqlNode.content
    if languageId = "python" then
      let formatted0 := fmt sqlNode.content
      let formatted :=
        if isEnabledIndent then indentedContent formatted0 methodLineText tabSize
        else formatted0
      some (sqlNode.rangeStart, sqlNode.rangeStop, pfx ++ formatted ++ sfx)
    else
      let ps := getPositions languageId docText sqlNode pfx.length sfx.length
      if shouldSkipFormatting languageId docText ps.1 ps.2 then none
      else
        let formatted0 := fmt sqlNode.content
        let formatted :=
          if isEnabledIndent then indentedContent formatted0 methodLineText tabSize
          else formatted0
        some (sqlNode.rangeStart, sqlNode.rangeStop, pfx ++ formatted ++ sfx)

/-! ### Host/virtual coordinate semantics. -/

/-- Zero-based line of a character offset in a `\n`-separated text. -/
def lineOfOffset (t : List Char) (off : Nat) : Nat :=
  (t.take off).count nlChar

/-- Zero-based column of a character offset: distance to the nearest
    newline (or text start) on the left. -/
def colOfOffset (t : List Char) (off : Nat) : Nat :=
  ((t.take off).reverse.takeWhile (fun c => c != nlChar)).length

set_option maxRecDepth 8000 in
example :
    extractSqlFromPython (("cursor.execute(\"SELECT * FROM users\")").data) none
      = [{ rangeStart := { line := 0, character := 16 },
           rangeStop := { line := 0, character := 35 },
           content := ("SELECT * FROM users").data, method_line := 0 }] := by
  decide

/-! ## Claim theorems -/

set_option maxRecDepth 8000 in
/-- C4 (counterexample): the claim says an unterminated call (EOF before
    the paren depth returns to 0) produces NO fragment.  The input
    `cursor.execute("SELECT 1"` contains no closing parenthesis at all —
    the collection loop runs off the end of input — yet extraction still
    runs the string patterns over the collected text and produces one
    fragment. -/
theorem unterminated_call_still_yields_fragment :
    countOcc [rparChar] (("cursor.execute(\"SELECT 1\"").data) = 0 ∧
    extractSqlFromPython (("cursor.execute(\"SELECT 1\"").data) none
      = [{ rangeStart := { line := 0, character := 16 },
           rangeStop := { line := 0, character := 24 },
           content := ("SELECT 1").data, method_line := 0 }] := by
  decide

set_option maxRecDepth 8000 in
/-- C4 (amended): an unterminated call is not discarded as such —
    collection simply stops at end of input and the string patterns still
    run over the collected text; a fragment appears iff some pattern
    matches.  The spec's own negative example `cursor.execute("SELECT`
    (unterminated call AND unterminated string, so no pattern can match)
    does yield zero fragments, and extraction is a total function, so no
    error is thrown. -/
theorem unterminated_string_yields_no_fragment :
    extractSqlFromPython (("cursor.execute(\"SELECT").data) none = [] := by
  decide

/-- C5: neither extraction entry point propagates an exception: the
    `try/catch` wrappers of `extractSqlListPy` and `refresh` map any
    thrown body (`Except.error`) to the empty list and pass a normal
    result through unchanged. -/
theorem extraction_entry_points_never_throw :
    ∀ (e₁ e₂ : String) (sqlNodes : List SqlNode) (withVFile : List (SqlNode × String)),
      extractSqlListPy (Except.error e₁) = [] ∧
      refreshCatch (Except.error e₂) = [] ∧
      extractSqlListPy (Except.ok sqlNodes) = sqlNodes ∧
      refreshCatch (Except.ok withVFile) = withVFile := by
  intro e₁ e₂ sqlNodes withVFile
  exact ⟨rfl, rfl, rfl, rfl⟩

/-- C8: a `customRawSqlQuery` configuration whose `language` differs from
    the document's language id is discarded entirely, and extraction then
    runs with the per-family default rules (`execute`, `executemany`,
    `query`, `raw`, `text`, argument 1). -/
theorem cross_language_config_ignored :
    ∀ (rawContent : List Char) (cfg : CustomRawSqlQueryCfg),
      cfg.language ≠ "python" →
      refreshExtract "python" rawContent (some cfg)
          = extractSqlFromPython rawContent none ∧
      extractSqlFromPython rawContent none
          = extractSqlFromPython rawContent (some defaultConfigs) := by
  intro rawContent cfg h
  refine ⟨?_, rfl⟩
  simp [refreshExtract, h]

set_option maxRecDepth 8000 in
theorem cross_language_config_ignored_witness :
    refreshExtract "python" (("x.execute(\"SELECT 1\")").data)
        (some { language := "typescript",
                configs := [{ functionName := ("rawQuery").data, sqlArgNo := 1,
                              isStringTemplate := false }] })
      = extractSqlFromPython (("x.execute(\"SELECT 1\")").data) none ∧
    extractSqlFromPython (("x.execute(\"SELECT 1\")").data) none
      = extractSqlFromPython (("x.execute(\"SELECT 1\")").data) (some defaultConfigs) :=
  cross_language_config_ignored _ _ (by decide)

/-- C9: for a TypeScript or JavaScript document, when both characters
    adjacent to the fragment's computed replacement span (the character
    just before the start offset and the character at the end offset) are
    quote characters (`"` or `'`, the class tested by
    `shouldSkipFormatting`), `formatSqlNode` registers no edit. -/
theorem ts_single_line_string_skips_formatting :
    ∀ (languageId : String) (docText : List Char) (sqlNode : SqlNode)
      (fmt : List Char → List Char) (isEnabledIndent : Bool)
      (methodLineText : Option (List Char)) (tabSize : Nat),
      languageId = "typescript" ∨ languageId = "javascript" →
      optIsQuote (charAtInt docText
        ((getPositions languageId docText sqlNode (formatPfx sqlNode.content).length
            (formatSfx sqlNode.content).length).1 - 1)) = true →
      optIsQuote (charAtInt docText
        ((getPositions languageId docText sqlNode (formatPfx sqlNode.content).length
            (formatSfx sqlNode.content).length).2)) = true →
      formatSqlNode languageId docText sqlNode fmt isEnabledIndent
        methodLineText tabSize = none := by
  intro languageId docText sqlNode fmt isEnabledIndent methodLineText tabSize hl h1 h2
  by_cases hc : sqlNode.content.all isJsWs
  · simp [formatSqlNode, hc]
  · rcases hl with rfl | rfl <;>
      simp [formatSqlNode, hc, shouldSkipFormatting, h1, h2]

set_option maxRecDepth 2000 in
theorem ts_single_line_string_skips_formatting_witness :
    formatSqlNode "typescript" (("const q = db.query(\"SELECT 1\");").data)
        { rangeStart := { line := 0, character := 20 },
          rangeStop := { line := 0, character := 28 },
          content := ("SELECT 1").data, method_line := 0 }
        id false none 2 = none :=
  ts_single_line_string_skips_formatting _ _ _ _ _ _ _ (Or.inl rfl)
    (by decide) (by decide)

/-- C10: a fragment whose content is empty or whitespace-only (the
    `/^\s*$/` guard) is skipped by `formatSqlNode`: no edit is registered
    for it in any language. -/
theorem whitespace_only_fragment_not_formatted :
    ∀ (languageId : String) (docText : List Char) (sqlNode : SqlNode)
      (fmt : List Char → List Char) (isEnabledIndent : Bool)
      (methodLineText : Option (List Char)) (tabSize : Nat),
      sqlNode.content.all isJsWs = true →
      formatSqlNode languageId docText sqlNode fmt isEnabledIndent
        methodLineText tabSize = none := by
  intro languageId docText sqlNode fmt isEnabledIndent methodLineText tabSize h
  simp [formatSqlNode, h]

theorem whitespace_only_fragment_not_formatted_witness :
    formatSqlNode "python" (("cursor.execute(\"  \")").data)
        { rangeStart := { line := 0, character := 16 },
          rangeStop := { line := 0, character := 18 },
          content := ("  ").data, method_line := 0 }
        id true (some (("cursor.execute(\"  \")").data)) 4 = none :=
  whitespace_only_fragment_not_formatted _ _ _ _ _ _ _ (by decide)

/-! ### `splitLines` / `joinNl` facts used for the re-indentation claim. -/

theorem splitLines_ne_nil : ∀ t : List Char, splitLines t ≠ [] := by
  intro t
  cases t with
  | nil => simp [splitLines]
  | cons c rest =>
    simp only [splitLines]
    split
    · simp
    · cases splitLines rest <;> simp

theorem no_nl_mem_splitLines : ∀ (t : List Char) (l : List Char),
    l ∈ splitLines t → nlChar ∉ l := by
  intro t
  induction t with
  | nil => intro l hl; simp [splitLines] at hl; simp [hl]
  | cons c rest ih =>
    intro l hl
    simp only [splitLines] at hl
    by_cases hc : c = nlChar
    · rw [if_pos hc] at hl
      rcases List.mem_cons.mp hl with rfl | h
      · simp
      · exact ih l h
    · rw [if_neg hc] at hl
      cases hsplit : splitLines rest with
      | nil => exact absurd hsplit (splitLines_ne_nil rest)
      | cons l0 ls =>
        rw [hsplit] at hl
        rcases List.mem_cons.mp hl with rfl | h
        · intro hmem
          rcases List.mem_cons.mp hmem with rfl | h2
          · exact hc rfl
          · exact ih l0 (by rw [hsplit]; exact List.mem_cons_self _ _) h2
        · exact ih l (by rw [hsplit]; exact List.mem_cons_of_mem _ h)

theorem splitLines_of_no_nl : ∀ l : List Char, nlChar ∉ l → splitLines l = [l] := by
  intro l
  induction l with
  | nil => intro _; rfl
  | cons c rest ih =>
    intro h
    have hc : c ≠ nlChar := fun hcc => h (hcc ▸ List.mem_cons_self _ _)
    have hrest : nlChar ∉ rest := fun hr => h (List.mem_cons_of_mem _ hr)
    simp only [splitLines, if_neg hc, ih hrest]

theorem splitLines_append_nl : ∀ (x t : List Char), nlChar ∉ x →
    splitLines (x ++ nlChar :: t) = x :: splitLines t := by
  intro x
  induction x with
  | nil => intro t _; simp [splitLines]
  | cons c rest ih =>
    intro t h
    have hc : c ≠ nlChar := fun hcc => h (hcc ▸ List.mem_cons_self _ _)
    have hrest : nlChar ∉ rest := fun hr => h (List.mem_cons_of_mem _ hr)
    simp [List.cons_append, splitLines, if_neg hc, ih t hrest]

theorem splitLines_joinNl : ∀ ls : List (List Char), ls ≠ [] →
    (∀ l ∈ ls, nlChar ∉ l) → splitLines (joinNl ls) = ls := by
  intro ls
  induction ls with
  | nil => intro h; exact absurd rfl h
  | cons l rest ih =>
    intro _ hnl
    cases rest with
    | nil => exact splitLines_of_no_nl l (hnl l (List.mem_cons_self _ _))
    | cons l2 rest2 =>
      have : joinNl (l :: l2 :: rest2) = l ++ nlChar :: joinNl (l2 :: rest2) := rfl
      rw [this, splitLines_append_nl l _ (hnl l (List.mem_cons_self _ _))]
      rw [ih (by simp) (fun x hx => hnl x (List.mem_cons_of_mem _ hx))]

/-- C6 (counterexample): the claim says the FIRST line of the replacement
    is not indented and later lines get the owning line's indentation plus
    one indent unit.  `indentedContent` in fact prefixes every line,
    including the first: with content `SELECT\n1`, owning-line text `"  x"`
    and tab size 2, the first output line is `    SELECT` (indented), not
    `SELECT`. -/
theorem indentedContent_indents_first_line :
    splitLines (indentedContent (("SELECT\n1").data) (some (("  x").data)) 2)
      = [("    SELECT").data, ("    1").data] ∧
    (splitLines (("SELECT\n1").data)).head? = some (("SELECT").data) := by
  decide

/-- C6 (amended): when the owning line has non-empty leading whitespace
    `indents`, EVERY line of the re-indented replacement — the first
    included — is prefixed with `indents` plus the first `tabSize`
    characters of `indents` (`indents.slice(0, tabSize)`); when the owning
    line has no leading whitespace the content is returned unchanged. -/
theorem indentedContent_prefixes_all_lines :
    ∀ (content lineText : List Char) (tabSize : Nat),
      nlChar ∉ lineText →
      (lineText.takeWhile isJsWs ≠ [] →
        splitLines (indentedContent content (some lineText) tabSize)
          = (splitLines content).map
              (fun line => lineText.takeWhile isJsWs ++
                (lineText.takeWhile isJsWs).take tabSize ++ line)) ∧
      (lineText.takeWhile isJsWs = [] →
        indentedContent content (some lineText) tabSize = content) := by
  intro content lineText tabSize hnl
  constructor
  · intro hind
    have hlt : lineText ≠ [] := by
      intro h; rw [h] at hind; exact hind rfl
    have hnlInd : nlChar ∉ lineText.takeWhile isJsWs := by
      intro h; exact hnl (List.takeWhile_subset _ h)
    simp only [indentedContent, if_neg hlt, if_neg hind]
    have hpieces : ∀ l ∈ (splitLines content).map
        (fun line => lineText.takeWhile isJsWs ++
          (lineText.takeWhile isJsWs).take tabSize ++ line), nlChar ∉ l := by
      intro l hl
      rcases List.mem_map.mp hl with ⟨piece, hpiece, rfl⟩
      intro hmem
      rcases List.mem_append.mp hmem with h12 | h3
      · rcases List.mem_append.mp h12 with h1 | h2
        · exact hnlInd h1
        · exact hnlInd (List.take_subset _ _ h2)
      · exact no_nl_mem_splitLines content piece hpiece h3
    exact splitLines_joinNl _ (by simp [splitLines_ne_nil]) hpieces
  · intro hind
    by_cases hlt : lineText = []
    · simp [indentedContent, hlt]
    · simp [indentedContent, if_neg hlt, hind]

theorem indentedContent_prefixes_all_lines_witness :
    splitLines (indentedContent (("a\nb").data) (some ((" x").data)) 1)
      = (splitLines (("a\nb").data)).map
          (fun line => ((" x").data).takeWhile isJsWs ++
            (((" x").data).takeWhile isJsWs).take 1 ++ line) :=
  (indentedContent_prefixes_all_lines _ _ _ (by decide)).1 (by decide)

/-! ### Association-list facts for the virtual-document store. -/

theorem lookup_map_overwrite {α : Type} (k : String) (v : α) :
    ∀ m : List (String × α), (m.lookup k).isSome = true →
      (m.map (fun p => if p.1 = k then (p.1, v) else p)).lookup k = some v := by
  intro m
  induction m with
  | nil => intro h; simp [List.lookup] at h
  | cons p m ih =>
    intro h
    rw [List.map_cons]
    by_cases hp : p.1 = k
    · subst hp
      rw [if_pos rfl]
      simp [List.lookup]
    · have hbeq2 : (k == p.1) = false := beq_eq_false_iff_ne.mpr (Ne.symm hp)
      have h' : (m.lookup k).isSome = true := by
        simpa [List.lookup, hbeq2] using h
      rw [if_neg hp]
      simpa [List.lookup, hbeq2] using ih h'

theorem lookup_append_single {α : Type} (k : String) (v : α)
    (m : List (String × α)) (h : m.lookup k = none) :
    (m ++ [(k, v)]).lookup k = some v := by
  rw [List.lookup_append, h]
  simp [List.lookup]

theorem lookup_mapSet_self {α : Type} (k : String) (v : α)
    (m : List (String × α)) : (mapSet m k v).lookup k = some v := by
  unfold mapSet
  by_cases h : (m.lookup k).isSome
  · rw [if_pos h]
    exact lookup_map_overwrite k v m h
  · rw [if_neg h]
    refine lookup_append_single k v m ?_
    cases hm : m.lookup k with
    | none => rfl
    | some w => rw [hm] at h; simp at h

theorem filter_not_contains_self (l : List String) :
    l.filter (fun v => !(l.contains v)) = [] := by
  rw [List.filter_eq_nil_iff]
  intro a ha
  simp [List.contains, List.elem_eq_mem, ha]

theorem vDocWrites_fst (fileName : String) (rawContent : List Char)
    (sqlNodes : List SqlNode) :
    (vDocWrites fileName rawContent sqlNodes).map (·.1)
      = (List.range sqlNodes.length).map (vKey fileName) := by
  unfold vDocWrites
  rw [List.map_map]
  have hfun : ((·.1) ∘ (fun p : Nat × SqlNode =>
      (vKey fileName p.1, mkVirtualText rawContent p.2)))
        = (vKey fileName) ∘ Prod.fst := rfl
  rw [hfun, ← List.map_map, List.enum_map_fst]

theorem mem_vDocWrites (fileName : String) (rawContent : List Char)
    (sqlNodes : List SqlNode) (i : Nat) (h : i < sqlNodes.length) :
    (vKey fileName i, mkVirtualText rawContent sqlNodes[i])
      ∈ vDocWrites fileName rawContent sqlNodes := by
  unfold vDocWrites
  have hlen : i < sqlNodes.enum.length := by rw [List.enum_length]; exact h
  have he : (i, sqlNodes[i]) ∈ sqlNodes.enum := by
    have hg := List.getElem_enum sqlNodes i hlen
    rw [← hg]
    exact List.getElem_mem hlen
  exact List.mem_map_of_mem _ he

/-- C3: two consecutive refreshes of the same file with the same fragment
    count (content possibly changed): the stored key list is unchanged
    (same `{fileName}@{index}.sql` keys, since keys depend only on the
    count), the second refresh deletes no key from the backing store, and
    it performs a snapshot write carrying the new virtual text for every
    fragment. -/
theorem refresh_same_count_diff_invariant :
    ∀ (st0 : VDocStore) (fileName : String) (raw1 raw2 : List Char)
      (nodes1 nodes2 : List SqlNode),
      nodes1.length = nodes2.length →
      ((refreshVirtualDocs fileName raw2 nodes2
          (refreshVirtualDocs fileName raw1 nodes1 st0).1).1.virtualContents.lookup
            fileName
        = (refreshVirtualDocs fileName raw1 nodes1 st0).1.virtualContents.lookup
            fileName) ∧
      (refreshVirtualDocs fileName raw2 nodes2
          (refreshVirtualDocs fileName raw1 nodes1 st0).1).2.1 = [] ∧
      ∀ i (h : i < nodes2.length),
        (vKey fileName i, mkVirtualText raw2 nodes2[i])
          ∈ (refreshVirtualDocs fileName raw2 nodes2
              (refreshVirtualDocs fileName raw1 nodes1 st0).1).2.2 := by
  intro st0 fileName raw1 raw2 nodes1 nodes2 hlen
  have hkeys : (vDocWrites fileName raw1 nodes1).map (·.1)
      = (vDocWrites fileName raw2 nodes2).map (·.1) := by
    rw [vDocWrites_fst, vDocWrites_fst, hlen]
  refine ⟨?_, ?_, ?_⟩
  · show (mapSet (refreshVirtualDocs fileName raw1 nodes1 st0).1.virtualContents
        fileName ((vDocWrites fileName raw2 nodes2).map (·.1))).lookup fileName
      = (mapSet st0.virtualContents fileName
          ((vDocWrites fileName raw1 nodes1).map (·.1))).lookup fileName
    rw [lookup_mapSet_self, lookup_mapSet_self, hkeys]
  · show ((((mapSet st0.virtualContents fileName
        ((vDocWrites fileName raw1 nodes1).map (·.1))).lookup fileName).getD
          []).filter
            (fun v => !(((vDocWrites fileName raw2 nodes2).map (·.1)).contains v)))
      = []
    rw [lookup_mapSet_self, Option.getD_some, hkeys]
    exact filter_not_contains_self _
  · intro i h
    show (vKey fileName i, mkVirtualText raw2 nodes2[i])
        ∈ vDocWrites fileName raw2 nodes2
    exact mem_vDocWrites fileName raw2 nodes2 i h

theorem refresh_same_count_diff_invariant_witness :
    ((refreshVirtualDocs "f.py" (("y").data)
        [{ rangeStart := { line := 0, character := 0 },
           rangeStop := { line := 0, character := 1 },
           content := ("SELECT 2").data, method_line := 0 }]
        (refreshVirtualDocs "f.py" (("x").data)
          [{ rangeStart := { line := 0, character := 0 },
             rangeStop := { line := 0, character := 1 },
             content := ("SELECT 1").data, method_line := 0 }]
          { virtualContents := [], snapshots := [] }).1).1.virtualContents.lookup
            "f.py"
      = ((refreshVirtualDocs "f.py" (("x").data)
          [{ rangeStart := { line := 0, character := 0 },
             rangeStop := { line := 0, character := 1 },
             content := ("SELECT 1").data, method_line := 0 }]
          { virtualContents := [], snapshots := [] }).1.virtualContents.lookup
            "f.py")) ∧
    ((refreshVirtualDocs "f.py" (("y").data)
        [{ rangeStart := { line := 0, character := 0 },
           rangeStop := { line := 0, character := 1 },
           content := ("SELECT 2").data, method_line := 0 }]
        (refreshVirtualDocs "f.py" (("x").data)
          [{ rangeStart := { line := 0, character := 0 },
             rangeStop := { line := 0, character := 1 },
             content := ("SELECT 1").data, method_line := 0 }]
          { virtualContents := [], snapshots := [] }).1).2.1 = []) ∧
    (vKey "f.py" 0,
      mkVirtualText (("y").data)
        [{ rangeStart := { line := 0, character := 0 },
           rangeStop := { line := 0, character := 1 },
           content := ("SELECT 2").data, method_line := 0 }][0])
      ∈ (refreshVirtualDocs "f.py" (("y").data)
          [{ rangeStart := { line := 0, character := 0 },
             rangeStop := { line := 0, character := 1 },
             content := ("SELECT 2").data, method_line := 0 }]
          (refreshVirtualDocs "f.py" (("x").data)
            [{ rangeStart := { line := 0, character := 0 },
               rangeStop := { line := 0, character := 1 },
               content := ("SELECT 1").data, method_line := 0 }]
            { virtualContents := [], snapshots := [] }).1).2.2 := by
  have h := refresh_same_count_diff_invariant
    { virtualContents := [], snapshots := [] } "f.py" (("x").data) (("y").data)
    [{ rangeStart := { line := 0, character := 0 },
       rangeStop := { line := 0, character := 1 },
       content := ("SELECT 1").data, method_line := 0 }]
    [{ rangeStart := { line := 0, character := 0 },
       rangeStop := { line := 0, character := 1 },
       content := ("SELECT 2").data, method_line := 0 }]
    rfl
  exact ⟨h.1, h.2.1, h.2.2 0 (by decide)⟩

/-! ### `find?` decomposition used for the fallback characterization. -/

theorem find?_eq_some_split {α : Type} (p : α → Bool) :
    ∀ (l : List α) (a : α), l.find? p = some a →
      ∃ pre post, l = pre ++ a :: post ∧ p a = true ∧ ∀ x ∈ pre, p x = false := by
  intro l
  induction l with
  | nil => intro a h; simp [List.find?] at h
  | cons b l ih =>
    intro a h
    by_cases hb : p b
    · rw [List.find?_cons_of_pos _ hb] at h
      obtain rfl : b = a := by injection h
      exact ⟨[], l, rfl, hb, by simp⟩
    · rw [List.find?_cons_of_neg _ (by simpa using hb)] at h
      obtain ⟨pre, post, rfl, hpa, hpre⟩ := ih a h
      refine ⟨b :: pre, post, rfl, hpa, ?_⟩
      intro x hx
      rcases List.mem_cons.mp hx with rfl | hx'
      · simpa using hb
      · exact hpre x hx'

set_option maxRecDepth 8000 in
/-- C7 (counterexample): the claim says the keyword fallback is attempted
    only after all precise patterns FAILED TO MATCH.  On the call text
    `execute("", "SELECT 1")` pattern 1 (single-line string) does match —
    with empty content — yet the fallback is still used and produces the
    fragment `SELECT 1`. -/
theorem fallback_used_despite_pattern_match :
    (firstMatchAt (pat1At (("execute").data))
        (("execute(\"\", \"SELECT 1\")").data)).isSome = true ∧
    extractSqlString (("execute(\"\", \"SELECT 1\")").data)
        { functionName := ("execute").data, sqlArgNo := 1, isStringTemplate := false }
      = fallbackSql (("execute(\"\", \"SELECT 1\")").data) ∧
    fallbackSql (("execute(\"\", \"SELECT 1\")").data)
      = some { content := ("SELECT 1").data, startChar := 13, endChar := 21 } := by
  decide

/-- C7 (amended): the keyword fallback runs only after every precise
    pattern has failed to produce a non-empty (after trim) content — a
    pattern that matches with empty content does not stop the cascade.
    When used, the fallback returns the first quoted substring (pairing
    quote characters left to right) whose upper-cased content contains a
    keyword of the fixed set, and produces no fragment when no quoted
    substring does. -/
theorem fallback_is_last_resort :
    ∀ (functionCall : List Char) (config : CustomRawSqlQueryPyItem),
      (stagedPatterns config.functionName functionCall = none →
        extractSqlString functionCall config = fallbackSql functionCall) ∧
      (fallbackSql functionCall = none ↔
        ∀ s ∈ quotedStrings functionCall, fallbackHit s = false) ∧
      (∀ r, fallbackSql functionCall = some r →
        ∃ pre s post, quotedStrings functionCall = pre ++ s :: post ∧
          fallbackHit s = true ∧ (∀ x ∈ pre, fallbackHit x = false) ∧
          r.content = jsTrim (stripQuotes s)) := by
  intro functionCall config
  refine ⟨?_, ?_, ?_⟩
  · intro h
    rw [extractSqlString, h, Option.none_orElse]
  · rw [fallbackSql, Option.map_eq_none', List.find?_eq_none]
    constructor
    · intro h s hs
      simpa using h s hs
    · intro h s hs
      simp [h s hs]
  · intro r hr
    rw [fallbackSql, Option.map_eq_some'] at hr
    obtain ⟨s, hfind, hmk⟩ := hr
    obtain ⟨pre, post, heq, hhit, hpre⟩ := find?_eq_some_split fallbackHit _ s hfind
    refine ⟨pre, s, post, heq, hhit, hpre, ?_⟩
    rw [← hmk]

set_option maxRecDepth 2000 in
theorem fallback_is_last_resort_witness :
    extractSqlString (("foo(\"hello\")").data)
        { functionName := ("execute").data, sqlArgNo := 1, isStringTemplate := false }
      = fallbackSql (("foo(\"hello\")").data) ∧
    fallbackSql (("foo(\"hello\")").data) = none :=
  ⟨(fallback_is_last_resort (("foo(\"hello\")").data)
      { functionName := ("execute").data, sqlArgNo := 1,
        isStringTemplate := false }).1 (by decide),
   (fallback_is_last_resort (("foo(\"hello\")").data)
      { functionName := ("execute").data, sqlArgNo := 1,
        isStringTemplate := false }).2.1.mpr (by decide)⟩

/-! ### Facts about the extraction loop structure. -/

theorem extractSqlFromLine_method_line
    (lines : List (List Char)) (i : Nat) (config : CustomRawSqlQueryPyItem)
    (nd : SqlNode) : extractSqlFromLine lines i config = some nd →
      nd.method_line = i := by
  intro h
  simp only [extractSqlFromLine, Option.map_eq_some'] at h
  obtain ⟨r, _, rfl⟩ := h
  rfl

theorem mem_lineMatchGroup_method_line
    (lines : List (List Char)) (active : List CustomRawSqlQueryPyItem)
    (i : Nat) (nd : SqlNode) : nd ∈ lineMatchGroup lines active i →
      nd.method_line = i := by
  intro h
  simp only [lineMatchGroup, List.mem_filterMap] at h
  obtain ⟨config, _, hcfg⟩ := h
  by_cases ht :
      functionPatternTest (jsTrim (lines.getD i [])) config.functionName = true
  · rw [if_pos ht] at hcfg
    exact extractSqlFromLine_method_line lines i config nd hcfg
  · rw [if_neg ht] at hcfg
    cases hcfg

theorem pairwise_of_mem_rel {α : Type} {R : α → α → Prop} :
    ∀ l : List α, (∀ a ∈ l, ∀ b ∈ l, R a b) → l.Pairwise R := by
  intro l
  induction l with
  | nil => intro _; exact List.Pairwise.nil
  | cons a t ih =>
    intro h
    refine List.Pairwise.cons ?_ (ih ?_)
    · intro b hb
      exact h a (List.mem_cons_self _ _) b (List.mem_cons_of_mem _ hb)
    · intro x hx y hy
      exact h x (List.mem_cons_of_mem _ hx) y (List.mem_cons_of_mem _ hy)

theorem sum_map_le_of_single_nonzero (f : Nat → Nat) (i bound : Nat) :
    ∀ l : List Nat, l.Nodup → (∀ j ∈ l, j ≠ i → f j = 0) → f i ≤ bound →
      (l.map f).sum ≤ bound := by
  intro l
  induction l with
  | nil => intro _ _ _; simp
  | cons j t ih =>
    intro hnd hz hb
    rw [List.map_cons, List.sum_cons]
    by_cases hj : j = i
    · subst hj
      have ht0 : (t.map f).sum = 0 := by
        apply List.sum_eq_zero
        intro x hx
        rcases List.mem_map.mp hx with ⟨k, hk, rfl⟩
        refine hz k (List.mem_cons_of_mem _ hk) ?_
        intro hki
        exact (List.nodup_cons.mp hnd).1 (hki ▸ hk)
      rw [ht0]
      simpa using hb
    · rw [hz j (List.mem_cons_self _ _) hj]
      simpa using ih (List.nodup_cons.mp hnd).2
        (fun k hk => hz k (List.mem_cons_of_mem _ hk)) hb

set_option maxRecDepth 16000 in
/-- C2 (counterexample): the claim promises exactly N fragments for N
    well-formed, non-overlapping matching calls.  The one-line input
    `a.execute("SELECT 1"); b.execute("SELECT 2")` contains two such
    `execute` calls (the substring `.execute(` occurs twice), but the
    per-line loop extracts at most one fragment per rule per line, so only
    the first call's fragment is produced. -/
theorem two_calls_same_line_one_fragment :
    countOcc ((".execute(").data)
        (("a.execute(\"SELECT 1\"); b.execute(\"SELECT 2\")").data) = 2 ∧
    extractSqlFromPython
        (("a.execute(\"SELECT 1\"); b.execute(\"SELECT 2\")").data) none
      = [{ rangeStart := { line := 0, character := 11 },
           rangeStop := { line := 0, character := 19 },
           content := ("SELECT 1").data, method_line := 0 }] := by
  decide

/-- C2 (amended): extraction produces at most one fragment per (line,
    active rule) pair — so a line holding several calls that match the
    same rule yields a single fragment — and the fragments are returned in
    nondecreasing order of their owning source line (`method_line`). -/
theorem extraction_ordered_by_line :
    ∀ (sourceTxt : List Char) (configs : Option (List CustomRawSqlQueryPyItem)),
      List.Pairwise (fun a b => a.method_line ≤ b.method_line)
        (extractSqlFromPython sourceTxt configs) ∧
      ∀ i, (extractSqlFromPython sourceTxt configs).countP
              (fun nd => nd.method_line == i)
            ≤ (configs.getD defaultConfigs).length := by
  intro sourceTxt configs
  constructor
  · simp only [extractSqlFromPython]
    apply List.pairwise_flatten.mpr
    constructor
    · intro g hg
      rcases List.mem_map.mp hg with ⟨j, _, rfl⟩
      apply pairwise_of_mem_rel
      intro a ha b hb
      rw [mem_lineMatchGroup_method_line _ _ _ _ ha,
        mem_lineMatchGroup_method_line _ _ _ _ hb]
    · rw [List.pairwise_map]
      refine List.Pairwise.imp ?_ (List.pairwise_lt_range _)
      intro a b hab x hx y hy
      rw [mem_lineMatchGroup_method_line _ _ _ _ hx,
        mem_lineMatchGroup_method_line _ _ _ _ hy]
      omega
  · intro i
    simp only [extractSqlFromPython]
    rw [List.countP_flatten, List.map_map]
    refine sum_map_le_of_single_nonzero _ i _ _ (List.nodup_range _) ?_ ?_
    · intro j _ hji
      apply List.countP_eq_zero.mpr
      intro nd hnd
      have hml := mem_lineMatchGroup_method_line _ _ _ _ hnd
      simp [hml, hji]
    · calc (lineMatchGroup (splitLines sourceTxt) (configs.getD defaultConfigs)
            i).countP (fun nd => nd.method_line == i)
          ≤ (lineMatchGroup (splitLines sourceTxt)
              (configs.getD defaultConfigs) i).length :=
            List.countP_le_length _
        _ ≤ (configs.getD defaultConfigs).length := List.length_filterMap_le _ _

/-! ### Newline structure is invariant under blanking. -/

theorem count_nl_blankNonNl : ∀ x : List Char,
    (blankNonNl x).count nlChar = x.count nlChar := by
  intro x
  induction x with
  | nil => rfl
  | cons c t ih =>
    simp only [blankNonNl] at ih ⊢
    rw [List.map_cons, List.count_cons, List.count_cons, ih]
    congr 1
    by_cases hc : c = nlChar
    · rw [if_pos hc, hc]
    · rw [if_neg hc]
      have h1 : (spChar == nlChar) = false := by decide
      have h2 : (c == nlChar) = false := beq_eq_false_iff_ne.mpr hc
      rw [h1, h2]

theorem takeWhile_len_blank : ∀ v : List Char,
    ((blankNonNl v).takeWhile (fun c => c != nlChar)).length
      = (v.takeWhile (fun c => c != nlChar)).length := by
  intro v
  induction v with
  | nil => rfl
  | cons c t ih =>
    simp only [blankNonNl] at ih ⊢
    rw [List.map_cons, List.takeWhile_cons, List.takeWhile_cons]
    by_cases hc : c = nlChar
    · rw [hc]
      simp
    · have h1 : (spChar != nlChar) = true := by decide
      have h2 : (c != nlChar) = true := bne_iff_ne.mpr hc
      rw [if_neg hc, h1, h2]
      simp [ih]

theorem takeWhile_len_append_blank : ∀ (u v : List Char),
    ((u ++ blankNonNl v).takeWhile (fun c => c != nlChar)).length
      = ((u ++ v).takeWhile (fun c => c != nlChar)).length := by
  intro u v
  induction u with
  | nil => simpa using takeWhile_len_blank v
  | cons c t ih =>
    rw [List.cons_append, List.cons_append, List.takeWhile_cons, List.takeWhile_cons]
    by_cases hc : (c != nlChar) = true
    · rw [if_pos hc, if_pos hc]
      simp [ih]
    · rw [if_neg hc, if_neg hc]

theorem blankNonNl_reverse (x : List Char) :
    (blankNonNl x).reverse = blankNonNl x.reverse := by
  simp [blankNonNl, List.map_reverse]

/-- C1 (amended): restricted to fragments whose content equals the host
    text over the fragment's span — i.e. when the extractor's trimming and
    `indexOf` relocation did not alter the span's text — every offset
    inside the span has the same zero-based line and column in the host
    document and in the virtual document (blanked prefix plus content). -/
theorem virtual_document_preserves_coordinates :
    ∀ (raw content : List Char) (s e o : Nat),
      content = (raw.drop s).take (e - s) →
      s ≤ o → o ≤ e → e ≤ raw.length →
      lineOfOffset (virtualTextFor raw s content) o = lineOfOffset raw o ∧
      colOfOffset (virtualTextFor raw s content) o = colOfOffset raw o := by
  intro raw content s e o hc hso hoe hel
  have hsl : s ≤ raw.length := le_trans (le_trans hso hoe) hel
  have hblen : (blankNonNl (raw.take s)).length = s := by
    simp [blankNonNl, List.length_take, Nat.min_eq_left hsl]
  have hvtake : (virtualTextFor raw s content).take o
      = blankNonNl (raw.take s) ++ content.take (o - s) := by
    rw [virtualTextFor, List.take_append_eq_append_take,
      List.take_of_length_le (by rw [hblen]; exact hso), hblen]
  have hrtake : raw.take o = raw.take s ++ (raw.drop s).take (o - s) := by
    conv_lhs => rw [show o = s + (o - s) from by omega, List.take_add]
  have hctake : content.take (o - s) = (raw.drop s).take (o - s) := by
    rw [hc, List.take_take, min_eq_left (show o - s ≤ e - s by omega)]
  constructor
  · rw [lineOfOffset, lineOfOffset, hvtake, hrtake, hctake,
      List.count_append, List.count_append, count_nl_blankNonNl]
  · rw [colOfOffset, colOfOffset, hvtake, hrtake, hctake,
      List.reverse_append, List.reverse_append, blankNonNl_reverse]
    exact takeWhile_len_append_blank _ _

theorem virtual_document_preserves_coordinates_witness :
    lineOfOffset (virtualTextFor (("ab\ncd").data) 3 (("cd").data)) 4
      = lineOfOffset (("ab\ncd").data) 4 ∧
    colOfOffset (virtualTextFor (("ab\ncd").data) 3 (("cd").data)) 4
      = colOfOffset (("ab\ncd").data) 4 :=
  virtual_document_preserves_coordinates (("ab\ncd").data) (("cd").data) 3 5 4
    (by decide) (by decide) (by decide) (by decide)

set_option maxRecDepth 16000 in
/-- C1 (counterexample): on `db.execute("""\nSELECT A""")` extraction
    produces a fragment spanning host offsets 14–23 (line 0 col 14 to
    line 1 col 8) whose content was TRIMMED (the leading newline of the
    triple-quoted payload is dropped), so the virtual text
    `blank(prefix) + content` has no newline at offset 14: host offset 15
    sits on line 1 of the host document but on line 0 of the virtual
    document, refuting the per-offset coordinate invariant. -/
theorem trimmed_content_breaks_coordinates :
    extractSqlFromPython (("db.execute(\"\"\"\nSELECT A\"\"\")").data) none
      = [{ rangeStart := { line := 0, character := 14 },
           rangeStop := { line := 1, character := 8 },
           content := ("SELECT A").data, method_line := 0 }] ∧
    offsetOfLineChar (("db.execute(\"\"\"\nSELECT A\"\"\")").data) 0 14 = 14 ∧
    offsetOfLineChar (("db.execute(\"\"\"\nSELECT A\"\"\")").data) 1 8 = 23 ∧
    ((14 : Nat) ≤ 15 ∧ (15 : Nat) < 23) ∧
    lineOfOffset (("db.execute(\"\"\"\nSELECT A\"\"\")").data) 15 = 1 ∧
    lineOfOffset
        (mkVirtualText (("db.execute(\"\"\"\nSELECT A\"\"\")").data)
          { rangeStart := { line := 0, character := 14 },
            rangeStop := { line := 1, character := 8 },
            content := ("SELECT A").data, method_line := 0 }) 15 = 0 := by
  decide
